import Mathlib

/-!
Shallow embedding of `tower-sessions-file-store` (src/src/lib.rs): a session
store keeping each session record, JSON-encoded, in one file per session inside
a storage directory, plus an expiry sweep (`delete_expired`).

The storage directory is modelled as an association list from file names to
files; a file carries its content and its filesystem last-modified time.
External collaborators (the session-identifier type `Id` from
tower-sessions-core and the serde_json codec) are not part of this repository;
they are modelled from the spec as an opaque, unambiguously round-tripping
identifier and an opaque encode/decode pair.  Environmental outcomes of
fallible syscalls that the source handles (`create_dir_all` failing,
`serde_json::to_writer` failing, `remove_file` failing for a reason other than
not-found) are passed in as explicit oracle arguments, mirroring the branches
the source takes on them.
-/

/-- Modelled from the spec: the session identifier (external `Id` type of
tower-sessions-core) is an opaque filename-safe token whose string form
round-trips without ambiguity.  A directory entry name is therefore either the
canonical rendering of an identifier or some foreign name that does not parse
as an identifier. -/
inductive FileName where
  | session (id : Int)
  | foreign (s : String)
deriving DecidableEq, Repr

/-- Modelled from the spec: rendering an identifier to its canonical string
form (`record.id.to_string()` in the source). -/
def idToName (id : Int) : FileName := FileName.session id

/-- Modelled from the spec: parsing a directory entry name as a session
identifier (`Id::from_str` in the source); foreign names do not parse. -/
def parseName : FileName → Option Int
  | FileName.session id => some id
  | FileName.foreign _ => none

/-- A session record: identifier, opaque data payload, absolute expiry
timestamp (mirrors `tower_sessions_core::session::Record`; the payload is
opaque to the store). -/
structure Record where
  id : Int
  data : String
  expiry_date : Int
deriving DecidableEq, Repr

/-- Modelled from the spec: file content as the opaque codec sees it — either
the serde_json encoding of a record, or raw foreign bytes that do not decode. -/
inductive FileContent where
  | encoded (r : Record)
  | raw (s : String)
deriving DecidableEq, Repr

/-- Modelled from the spec: decoding file content back to a record
(`serde_json::from_reader`); fails on content that is not an encoded record. -/
def decodeContent : FileContent → Option Record
  | FileContent.encoded r => some r
  | FileContent.raw _ => none

/-- A file in the storage directory: its content and its filesystem
last-modified time (`metadata().modified()`). -/
structure File where
  content : FileContent
  mtime : Nat
deriving DecidableEq, Repr

/-- The storage directory: an association list from file names to files. -/
abbrev Fs : Type := List (FileName × File)

/-- Look up a file by name (`path.is_file()` / opening the path). -/
def fsLookup : Fs → FileName → Option File
  | [], _ => none
  | (n', f') :: rest, n => if n' = n then some f' else fsLookup rest n

/-- Write a file: replace the binding for the name, or add it. -/
def fsInsert : Fs → FileName → File → Fs
  | [], n, f => [(n, f)]
  | (n', f') :: rest, n, f =>
    if n' = n then (n, f) :: rest else (n', f') :: fsInsert rest n f

/-- Remove a file by name (`remove_file` on a present file). -/
def fsErase : Fs → FileName → Fs
  | [], _ => []
  | (n', f') :: rest, n =>
    if n' = n then fsErase rest n else (n', f') :: fsErase rest n

/-- The generic backend error of tower-sessions
(`session_store::Error::Backend(msg)`). -/
inductive StoreError where
  | backend (msg : String)
deriving DecidableEq, Repr

/-- Whether a result is a backend error. -/
def isBackendErr : {α : Type} → Except StoreError α → Bool
  | _, Except.error (StoreError.backend _) => true
  | _, Except.ok _ => false

/-- The store configuration: the minimum file age before a sweep opens the
file to check its expiry (`minimum_expiry_date`, default 60 seconds).  The
folder name fixes which directory the association list models, so it needs no
field of its own. -/
structure FileSessionStorage where
  minimum_expiry_date : Nat
deriving DecidableEq, Repr

/-- Outcome of the two environmental syscalls in `create` whose failure the
source handles: `tokio::fs::create_dir_all` and `serde_json::to_writer`. -/
structure CreateEnv where
  mkdirFails : Bool
  encodeFails : Bool
deriving DecidableEq, Repr

/-- `SessionStore::create` (lib.rs lines 79-93): ensure the directory exists,
exclusively create the file named by the record's identifier (failing if it
already exists; the exclusive create produces the file before anything is
written to it), then serialize the record into it.  The record is received by
mutable reference; the returned `Record` component is the caller's record
after the call. -/
def create (_store : FileSessionStorage) (fs : Fs) (record : Record) (now : Nat)
    (env : CreateEnv) : Except StoreError Unit × Fs × Record :=
  if env.mkdirFails then
    (Except.error (StoreError.backend "Failed to create folder"), fs, record)
  else if (fsLookup fs (idToName record.id)).isSome then
    (Except.error (StoreError.backend "Failed to open file"), fs, record)
  else
    let fs1 := fsInsert fs (idToName record.id) ⟨FileContent.raw "", now⟩
    if env.encodeFails then
      (Except.error (StoreError.backend "Failed to serialize/decode"), fs1, record)
    else
      (Except.ok (), fsInsert fs1 (idToName record.id) ⟨FileContent.encoded record, now⟩, record)

/-- `SessionStore::save` (lib.rs lines 95-104): open the existing file in
write-and-truncate mode (failing, not creating, if absent; the truncation
empties the file before anything is written), then serialize the record into
it.  `encodeFails` is the outcome of `serde_json::to_writer`. -/
def save (_store : FileSessionStorage) (fs : Fs) (record : Record) (now : Nat)
    (encodeFails : Bool) : Except StoreError Unit × Fs :=
  match fsLookup fs (idToName record.id) with
  | none => (Except.error (StoreError.backend "Failed to open file"), fs)
  | some _ =>
    let fs1 := fsInsert fs (idToName record.id) ⟨FileContent.raw "", now⟩
    if encodeFails then
      (Except.error (StoreError.backend "Failed to serialize/decode"), fs1)
    else
      (Except.ok (), fsInsert fs1 (idToName record.id) ⟨FileContent.encoded record, now⟩)

/-- `SessionStore::load` (lib.rs lines 106-119): absence is `Ok(None)`, not an
error; otherwise open for read and deserialize, surfacing a backend error on
malformed content. -/
def load (_store : FileSessionStorage) (fs : Fs) (sessionId : Int) :
    Except StoreError (Option Record) :=
  match fsLookup fs (idToName sessionId) with
  | none => Except.ok none
  | some f =>
    match decodeContent f.content with
    | some r => Except.ok (some r)
    | none => Except.error (StoreError.backend "Failed to serialize/decode")

/-- Error kinds of `remove_file` as the source distinguishes them:
`std::io::ErrorKind::NotFound` versus every other kind. -/
inductive IoErrorKind where
  | notFound
  | other
deriving DecidableEq, Repr

/-- `tokio::fs::remove_file`: absent file yields a not-found error; a present
file is removed unless an environmental fault (`rmFault`, e.g. permissions)
makes the removal fail with some other error kind. -/
def removeFile (fs : Fs) (name : FileName) (rmFault : Bool) : Except IoErrorKind Fs :=
  if (fsLookup fs name).isSome then
    if rmFault then Except.error IoErrorKind.other else Except.ok (fsErase fs name)
  else
    Except.error IoErrorKind.notFound

/-- `SessionStore::delete` (lib.rs lines 121-134): remove the file; a
not-found error is swallowed (idempotent delete), any other removal error is a
backend error. -/
def delete (_store : FileSessionStorage) (fs : Fs) (sessionId : Int) (rmFault : Bool) :
    Except StoreError Unit × Fs :=
  match removeFile fs (idToName sessionId) rmFault with
  | Except.ok fs' => (Except.ok (), fs')
  | Except.error e =>
    if e ≠ IoErrorKind.notFound then
      (Except.error (StoreError.backend "Failed to Delete"), fs)
    else
      (Except.ok (), fs)

/-- The per-entry loop of `ExpiredDeletion::delete_expired` (lib.rs lines
143-177): walk the directory listing; skip entries whose name does not parse
as an identifier; abort with a backend error when the clock arithmetic
`SystemTime::now().duration_since(modified)` fails (modified time in the
future); skip entries younger than the minimum age; otherwise load the record
(propagating load errors, skipping vanished entries) and delete it when its
expiry timestamp is in the past.  `entries` is the directory listing being
walked; `fs` is the current directory state read by `load`/`delete`; `now` is
`SystemTime::now()`, `nowUtc` is `OffsetDateTime::now_utc()`. -/
def sweepEntries (store : FileSessionStorage) (entries : List (FileName × File))
    (fs : Fs) (now : Nat) (nowUtc : Int) : Except StoreError Unit × Fs :=
  match entries with
  | [] => (Except.ok (), fs)
  | (name, file) :: rest =>
    match parseName name with
    | none => sweepEntries store rest fs now nowUtc
    | some sessionId =>
      if now < file.mtime then
        (Except.error (StoreError.backend "Failed to subtract dates"), fs)
      else if now - file.mtime < store.minimum_expiry_date then
        sweepEntries store rest fs now nowUtc
      else
        match load store fs sessionId with
        | Except.error e => (Except.error e, fs)
        | Except.ok none => sweepEntries store rest fs now nowUtc
        | Except.ok (some session) =>
          if session.expiry_date < nowUtc then
            match delete store fs sessionId false with
            | (Except.ok _, fs') => sweepEntries store rest fs' now nowUtc
            | (Except.error e, fs') => (Except.error e, fs')
          else
            sweepEntries store rest fs now nowUtc

/-- `ExpiredDeletion::delete_expired` (lib.rs lines 139-180): list the
directory and run the per-entry loop over the listing. -/
def delete_expired (store : FileSessionStorage) (fs : Fs) (now : Nat) (nowUtc : Int) :
    Except StoreError Unit × Fs :=
  sweepEntries store fs fs now nowUtc

/-! ### Basic association-list lemmas -/

theorem fsLookup_insert_self (fs : Fs) (n : FileName) (f : File) :
    fsLookup (fsInsert fs n f) n = some f := by
  induction fs with
  | nil => simp [fsInsert, fsLookup]
  | cons e rest ih =>
    obtain ⟨n', f'⟩ := e
    by_cases h : n' = n
    · simp [fsInsert, fsLookup, h]
    · simp [fsInsert, fsLookup, h, ih]

theorem fsLookup_insert_ne (fs : Fs) (n m : FileName) (f : File) (h : n ≠ m) :
    fsLookup (fsInsert fs n f) m = fsLookup fs m := by
  induction fs with
  | nil => simp [fsInsert, fsLookup, h]
  | cons e rest ih =>
    obtain ⟨n', f'⟩ := e
    by_cases h' : n' = n
    · subst h'
      simp [fsInsert, fsLookup, h]
    · simp [fsInsert, fsLookup, h', ih]

theorem fsLookup_erase (fs : Fs) (n m : FileName) :
    fsLookup (fsErase fs n) m = if m = n then none else fsLookup fs m := by
  induction fs with
  | nil => simp [fsErase, fsLookup]
  | cons e rest ih =>
    obtain ⟨n', f'⟩ := e
    by_cases h : n' = n
    · subst h
      have e1 : fsErase ((n', f') :: rest) n' = fsErase rest n' := by
        simp [fsErase]
      rw [e1, ih]
      by_cases hm : m = n'
      · simp [hm]
      · simp [fsLookup, hm, Ne.symm hm]
    · have e1 : fsErase ((n', f') :: rest) n = (n', f') :: fsErase rest n := by
        simp [fsErase, h]
      rw [e1]
      by_cases hm : n' = m
      · subst hm
        simp [fsLookup, h]
      · simp [fsLookup, hm, ih]

theorem fsErase_of_lookup_none (fs : Fs) (n : FileName) (h : fsLookup fs n = none) :
    fsErase fs n = fs := by
  induction fs with
  | nil => simp [fsErase]
  | cons e rest ih =>
    obtain ⟨n', f'⟩ := e
    by_cases h' : n' = n
    · simp [fsLookup, h'] at h
    · simp [fsLookup, h'] at h
      simp [fsErase, h', ih h]

theorem mem_of_fsLookup_eq_some (fs : Fs) (n : FileName) (f : File)
    (h : fsLookup fs n = some f) : (n, f) ∈ fs := by
  induction fs with
  | nil => simp [fsLookup] at h
  | cons e rest ih =>
    obtain ⟨n', f'⟩ := e
    by_cases h' : n' = n
    · subst h'
      simp [fsLookup] at h
      subst h
      exact List.mem_cons_self _ _
    · simp [fsLookup, h'] at h
      exact List.mem_cons_of_mem _ (ih h)

theorem mem_of_mem_fsErase (fs : Fs) (n : FileName) (e : FileName × File)
    (h : e ∈ fsErase fs n) : e ∈ fs := by
  induction fs with
  | nil =>
    rw [show fsErase [] n = [] from rfl] at h
    exact absurd h (List.not_mem_nil e)
  | cons e' rest ih =>
    obtain ⟨n', f'⟩ := e'
    by_cases h' : n' = n
    · have e1 : fsErase ((n', f') :: rest) n = fsErase rest n := by
        simp [fsErase, h']
      rw [e1] at h
      exact List.mem_cons_of_mem _ (ih h)
    · have e1 : fsErase ((n', f') :: rest) n = (n', f') :: fsErase rest n := by
        simp [fsErase, h']
      rw [e1] at h
      rcases List.mem_cons.mp h with h2 | h2
      · subst h2
        exact List.mem_cons_self _ _
      · exact List.mem_cons_of_mem _ (ih h2)

/-! ### Claims about the CRUD operations -/

/-- C1: for every valid session record R, `create(R)` on an empty store
succeeds, and a subsequent `load(R.id)` succeeds and returns a record equal to
R: the serialized file written by `create` decodes back to the same record. -/
theorem create_then_load_roundtrip (store : FileSessionStorage) (r : Record) (now : Nat) :
    (create store [] r now ⟨false, false⟩).1 = Except.ok () ∧
    load store (create store [] r now ⟨false, false⟩).2.1 r.id = Except.ok (some r) := by
  constructor
  · simp [create, fsLookup]
  · simp [create, load, fsLookup, fsInsert, decodeContent]

/-- C10: `create` receives the record through a mutable reference but never
modifies it — the caller's record is returned identical on every path,
successful or not; in particular, on a filename collision `create` does not
regenerate the identifier, it fails with a backend error. -/
theorem create_never_mutates_record (store : FileSessionStorage) (fs : Fs)
    (r : Record) (now : Nat) (env : CreateEnv) :
    (create store fs r now env).2.2 = r ∧
    (env.mkdirFails = false → (fsLookup fs (idToName r.id)).isSome = true →
      (create store fs r now env).1
        = Except.error (StoreError.backend "Failed to open file")) := by
  obtain ⟨mk, enc⟩ := env
  refine ⟨?_, ?_⟩
  · cases mk <;> cases enc <;>
      by_cases h : (fsLookup fs (idToName r.id)).isSome <;>
      simp [create, h]
  · intro hmk hsome
    subst hmk
    simp [create, hsome]

/-- Witness for C10 at a concrete collision: the record survives unchanged and
the second-level open failure is reported. -/
theorem create_never_mutates_record_witness :
    (false = false ∧
      (fsLookup [(idToName 1, ⟨FileContent.encoded ⟨1, "a", 0⟩, 5⟩)] (idToName (1 : Int))).isSome
        = true) ∧
    (create ⟨60⟩ [(idToName 1, ⟨FileContent.encoded ⟨1, "a", 0⟩, 5⟩)] ⟨1, "b", 9⟩ 7
        ⟨false, false⟩).2.2 = (⟨1, "b", 9⟩ : Record) ∧
    (create ⟨60⟩ [(idToName 1, ⟨FileContent.encoded ⟨1, "a", 0⟩, 5⟩)] ⟨1, "b", 9⟩ 7
        ⟨false, false⟩).1 = Except.error (StoreError.backend "Failed to open file") :=
  ⟨⟨rfl, by decide⟩,
   (create_never_mutates_record ⟨60⟩ _ ⟨1, "b", 9⟩ 7 ⟨false, false⟩).1,
   (create_never_mutates_record ⟨60⟩ _ ⟨1, "b", 9⟩ 7 ⟨false, false⟩).2 rfl (by decide)⟩

/-- C4: creating the same record twice fails on the second call with a
backend error (whatever the environment does), leaves the store unchanged,
and the record stored by the first call is still returned by a subsequent
load. -/
theorem create_duplicate_fails (store : FileSessionStorage) (r : Record)
    (now now2 : Nat) (env2 : CreateEnv) (fs1 : Fs)
    (hfs1 : fs1 = (create store [] r now ⟨false, false⟩).2.1) :
    (create store [] r now ⟨false, false⟩).1 = Except.ok () ∧
    isBackendErr (create store fs1 r now2 env2).1 = true ∧
    (create store fs1 r now2 env2).2.1 = fs1 ∧
    load store (create store fs1 r now2 env2).2.1 r.id = Except.ok (some r) := by
  have hfs : (create store [] r now ⟨false, false⟩).2.1
      = [(idToName r.id, ⟨FileContent.encoded r, now⟩)] := by
    simp [create, fsLookup, fsInsert]
  rw [hfs] at hfs1
  subst hfs1
  obtain ⟨mk, e2⟩ := env2
  cases mk <;>
    simp [create, load, fsLookup, decodeContent, isBackendErr]

/-- Witness for C4 at a concrete record. -/
theorem create_duplicate_fails_witness :
    isBackendErr (create ⟨60⟩ [(idToName 1, ⟨FileContent.encoded ⟨1, "a", 0⟩, 0⟩)]
        ⟨1, "a", 0⟩ 1 ⟨false, false⟩).1 = true ∧
    load ⟨60⟩ (create ⟨60⟩ [(idToName 1, ⟨FileContent.encoded ⟨1, "a", 0⟩, 0⟩)]
        ⟨1, "a", 0⟩ 1 ⟨false, false⟩).2.1 1 = Except.ok (some ⟨1, "a", 0⟩) :=
  ⟨(create_duplicate_fails ⟨60⟩ ⟨1, "a", 0⟩ 0 1 ⟨false, false⟩ _ rfl).2.1,
   (create_duplicate_fails ⟨60⟩ ⟨1, "a", 0⟩ 0 1 ⟨false, false⟩ _ rfl).2.2.2⟩

/-- C5: `save(R)` for an identifier with no existing file fails with a
backend error and creates no file: save is strictly an update operation. -/
theorem save_requires_existing_file (store : FileSessionStorage) (fs : Fs)
    (r : Record) (now : Nat) (encodeFails : Bool)
    (h : fsLookup fs (idToName r.id) = none) :
    save store fs r now encodeFails
      = (Except.error (StoreError.backend "Failed to open file"), fs) := by
  simp [save, h]

/-- Witness for C5 on the empty store. -/
theorem save_requires_existing_file_witness :
    fsLookup [] (idToName (1 : Int)) = none ∧
    save ⟨60⟩ [] ⟨1, "a", 0⟩ 0 false
      = (Except.error (StoreError.backend "Failed to open file"), []) :=
  ⟨rfl, save_requires_existing_file ⟨60⟩ [] ⟨1, "a", 0⟩ 0 false rfl⟩

/-- C6: `delete(id)` succeeds when no file exists for `id`; when the file
exists, `delete(id)` succeeds, removes it, and a subsequent `load(id)`
returns absence; a removal failure of a kind other than not-found is a
backend error. -/
theorem delete_idempotent_spec (store : FileSessionStorage) (fs : Fs)
    (sessionId : Int) (rmFault : Bool) :
    (fsLookup fs (idToName sessionId) = none →
      delete store fs sessionId rmFault = (Except.ok (), fs)) ∧
    (∀ f, fsLookup fs (idToName sessionId) = some f →
      delete store fs sessionId false
          = (Except.ok (), fsErase fs (idToName sessionId)) ∧
      load store (delete store fs sessionId false).2 sessionId = Except.ok none) ∧
    (∀ f, fsLookup fs (idToName sessionId) = some f →
      delete store fs sessionId true
        = (Except.error (StoreError.backend "Failed to Delete"), fs)) := by
  refine ⟨?_, ?_, ?_⟩
  · intro h
    simp [delete, removeFile, h]
  · intro f h
    have h1 : delete store fs sessionId false
        = (Except.ok (), fsErase fs (idToName sessionId)) := by
      simp [delete, removeFile, h]
    refine ⟨h1, ?_⟩
    rw [h1]
    simp [load, fsLookup_erase]
  · intro f h
    simp [delete, removeFile, h]

/-- Witness for C6 on a concrete one-file store. -/
theorem delete_idempotent_spec_witness :
    fsLookup [(idToName 1, ⟨FileContent.encoded ⟨1, "a", 0⟩, 0⟩)] (idToName (1 : Int))
      = some ⟨FileContent.encoded ⟨1, "a", 0⟩, 0⟩ ∧
    delete ⟨60⟩ [(idToName 1, ⟨FileContent.encoded ⟨1, "a", 0⟩, 0⟩)] 1 false
      = (Except.ok (), ([] : Fs)) ∧
    load ⟨60⟩ (delete ⟨60⟩ [(idToName 1, ⟨FileContent.encoded ⟨1, "a", 0⟩, 0⟩)] 1 false).2 1
      = Except.ok none :=
  ⟨rfl,
   ((delete_idempotent_spec ⟨60⟩ [(idToName 1, ⟨FileContent.encoded ⟨1, "a", 0⟩, 0⟩)] 1
        false).2.1 ⟨FileContent.encoded ⟨1, "a", 0⟩, 0⟩ (by decide)).1,
   ((delete_idempotent_spec ⟨60⟩ [(idToName 1, ⟨FileContent.encoded ⟨1, "a", 0⟩, 0⟩)] 1
        false).2.1 ⟨FileContent.encoded ⟨1, "a", 0⟩, 0⟩ (by decide)).2⟩

/-- C7: after `create(R)` and `save(R')` for a modified record with the same
identifier, `load` returns exactly R': save fully overwrites the stored file
(truncate then write), with no merging of old and new payloads. -/
theorem create_save_load_overwrite (store : FileSessionStorage) (r r' : Record)
    (now1 now2 : Nat) (h : r'.id = r.id) :
    (save store (create store [] r now1 ⟨false, false⟩).2.1 r' now2 false).1
      = Except.ok () ∧
    load store (save store (create store [] r now1 ⟨false, false⟩).2.1 r' now2 false).2 r.id
      = Except.ok (some r') := by
  have hfs : (create store [] r now1 ⟨false, false⟩).2.1
      = [(idToName r.id, ⟨FileContent.encoded r, now1⟩)] := by
    simp [create, fsLookup, fsInsert]
  rw [hfs]
  constructor
  · simp [save, fsLookup, fsInsert, idToName, h]
  · simp [save, load, fsLookup, fsInsert, idToName, h, decodeContent]

/-- Witness for C7 at a concrete pair of records sharing an identifier. -/
theorem create_save_load_overwrite_witness :
    (⟨1, "b", 20⟩ : Record).id = (⟨1, "a", 10⟩ : Record).id ∧
    load ⟨60⟩ (save ⟨60⟩ (create ⟨60⟩ [] ⟨1, "a", 10⟩ 0 ⟨false, false⟩).2.1
        ⟨1, "b", 20⟩ 1 false).2 1 = Except.ok (some ⟨1, "b", 20⟩) :=
  ⟨rfl, (create_save_load_overwrite ⟨60⟩ ⟨1, "a", 10⟩ ⟨1, "b", 20⟩ 0 1 rfl).2⟩

/-- C3 counterexample: a `create` whose serialization step fails returns a
backend error yet leaves a newly created (empty) file behind — the exclusive
open at lib.rs line 84-88 creates the file before `serde_json::to_writer`
runs at line 89, so the operation is not all-or-nothing. -/
theorem create_serialize_failure_not_atomic_cex :
    isBackendErr (create ⟨60⟩ [] ⟨1, "a", 0⟩ 5 ⟨false, true⟩).1 = true ∧
    (create ⟨60⟩ [] ⟨1, "a", 0⟩ 5 ⟨false, true⟩).2.1 ≠ ([] : Fs) := by
  constructor
  · rfl
  · decide

/-- C3 amended: every failure is surfaced immediately to the caller and every
failure path of create, save, load and delete other than a serialization
failure leaves the store unchanged; but a `create` whose serialization step
fails leaves behind the freshly created empty file, and a `save` whose
serialization step fails leaves behind the truncated file. -/
theorem error_propagation_amended (store : FileSessionStorage) (fs : Fs)
    (r : Record) (now : Nat) (e : Bool) (sessionId : Int) (fault : Bool) :
    (create store fs r now ⟨true, e⟩).2.1 = fs ∧
    ((fsLookup fs (idToName r.id)).isSome = true →
      create store fs r now ⟨false, e⟩
        = (Except.error (StoreError.backend "Failed to open file"), fs, r)) ∧
    (fsLookup fs (idToName r.id) = none →
      create store fs r now ⟨false, true⟩
        = (Except.error (StoreError.backend "Failed to serialize/decode"),
           fsInsert fs (idToName r.id) ⟨FileContent.raw "", now⟩, r)) ∧
    (fsLookup fs (idToName r.id) = none →
      save store fs r now e
        = (Except.error (StoreError.backend "Failed to open file"), fs)) ∧
    (∀ f, fsLookup fs (idToName r.id) = some f →
      save store fs r now true
        = (Except.error (StoreError.backend "Failed to serialize/decode"),
           fsInsert fs (idToName r.id) ⟨FileContent.raw "", now⟩)) ∧
    (isBackendErr (delete store fs sessionId fault).1 = true →
      (delete store fs sessionId fault).2 = fs) := by
  refine ⟨?_, ?_, ?_, ?_, ?_, ?_⟩
  · simp [create]
  · intro h
    simp [create, h]
  · intro h
    simp [create, h]
  · intro h
    simp [save, h]
  · intro f h
    simp [save, h]
  · intro h
    by_cases hp : (fsLookup fs (idToName sessionId)).isSome <;>
      cases fault <;>
      simp [delete, removeFile, hp, isBackendErr] at h ⊢

/-- Witness for the amended C3 on a concrete store: a serialization failure
during `save` leaves the truncated file, an open failure leaves the store
unchanged. -/
theorem error_propagation_amended_witness :
    fsLookup [(idToName 1, ⟨FileContent.encoded ⟨1, "a", 0⟩, 0⟩)] (idToName (1 : Int))
      = some ⟨FileContent.encoded ⟨1, "a", 0⟩, 0⟩ ∧
    save ⟨60⟩ [(idToName 1, ⟨FileContent.encoded ⟨1, "a", 0⟩, 0⟩)] ⟨1, "b", 9⟩ 3 true
      = (Except.error (StoreError.backend "Failed to serialize/decode"),
         [(idToName 1, ⟨FileContent.raw "", 3⟩)]) :=
  ⟨by decide,
   by
    have h := (error_propagation_amended ⟨60⟩
        [(idToName 1, ⟨FileContent.encoded ⟨1, "a", 0⟩, 0⟩)] ⟨1, "b", 9⟩ 3 true 1
        false).2.2.2.2.1 ⟨FileContent.encoded ⟨1, "a", 0⟩, 0⟩ (by decide)
    simpa [fsInsert] using h⟩

/-! ### Sweep helper lemmas -/

theorem parseName_session (n : FileName) (i : Int) (h : parseName n = some i) :
    n = FileName.session i := by
  cases n with
  | session j =>
    simp [parseName] at h
    rw [h]
  | foreign s => simp [parseName] at h

theorem delete_noFault (store : FileSessionStorage) (fs : Fs) (i : Int) :
    delete store fs i false = (Except.ok (), fsErase fs (idToName i)) := by
  by_cases h : (fsLookup fs (idToName i)).isSome
  · simp [delete, removeFile, h]
  · have hn : fsLookup fs (idToName i) = none := Option.not_isSome_iff_eq_none.mp h
    simp [delete, removeFile, hn, fsErase_of_lookup_none fs _ hn]

/-- Whether the file name is the canonical rendering of some identifier. -/
def sessionNamed : FileName → Bool
  | FileName.session _ => true
  | FileName.foreign _ => false

/-- Every session-named file in the directory has content that decodes: the
well-formedness the store's own writes maintain. -/
def ContentsDecode (fs : Fs) : Prop :=
  ∀ e ∈ fs, sessionNamed e.1 = true → (decodeContent e.2.content).isSome = true

/-- No file in the directory carries a last-modified time in the future of
the sweep's clock reading. -/
def MtimesOk (entries : List (FileName × File)) (now : Nat) : Prop :=
  ∀ e ∈ entries, e.2.mtime ≤ now

theorem contentsDecode_fsErase (fs : Fs) (n : FileName) (h : ContentsDecode fs) :
    ContentsDecode (fsErase fs n) :=
  fun e he => h e (mem_of_mem_fsErase fs n e he)

theorem load_of_contentsDecode (store : FileSessionStorage) (fs : Fs) (i : Int)
    (hcd : ContentsDecode fs) :
    load store fs i
      = Except.ok ((fsLookup fs (idToName i)).bind (fun f => decodeContent f.content)) := by
  cases hlk : fsLookup fs (idToName i) with
  | none => simp [load, hlk]
  | some f =>
    have hmem := mem_of_fsLookup_eq_some fs _ f hlk
    have hdec := hcd (idToName i, f) hmem (by simp [idToName, sessionNamed])
    obtain ⟨r, hr⟩ := Option.isSome_iff_exists.mp hdec
    simp [load, hlk, hr]

/-- Processing a directory listing never touches a file whose name is not the
canonical rendering of any identifier parsed from the listing: the only
deletions the sweep performs target the names of parseable entries. -/
theorem sweep_lookup_preserved (store : FileSessionStorage) (now : Nat) (nowUtc : Int)
    (n : FileName) :
    ∀ (entries : List (FileName × File)) (fs : Fs),
      (∀ e ∈ entries, ∀ i : Int, parseName e.1 = some i → idToName i ≠ n) →
      fsLookup (sweepEntries store entries fs now nowUtc).2 n = fsLookup fs n := by
  intro entries
  induction entries with
  | nil =>
    intro fs _
    simp [sweepEntries]
  | cons e rest ih =>
    intro fs hcond
    obtain ⟨name, file⟩ := e
    have hrest : ∀ e ∈ rest, ∀ i : Int, parseName e.1 = some i → idToName i ≠ n :=
      fun e he => hcond e (List.mem_cons_of_mem _ he)
    cases hp : parseName name with
    | none =>
      simp only [sweepEntries, hp]
      exact ih fs hrest
    | some i =>
      have hne : idToName i ≠ n := hcond (name, file) (List.mem_cons_self _ _) i hp
      simp only [sweepEntries, hp]
      by_cases h1 : now < file.mtime
      · rw [if_pos h1]
      · rw [if_neg h1]
        by_cases h2 : now - file.mtime < store.minimum_expiry_date
        · rw [if_pos h2]
          exact ih fs hrest
        · rw [if_neg h2]
          have h4 : fsLookup (fsErase fs (idToName i)) n = fsLookup fs n := by
            rw [fsLookup_erase]
            simp [Ne.symm hne]
          split
          · rfl
          · exact ih fs hrest
          · split
            · rw [delete_noFault]
              exact (ih _ hrest).trans h4
            · exact ih fs hrest

instance (entries : List (FileName × File)) (now : Nat) :
    Decidable (MtimesOk entries now) :=
  inferInstanceAs (Decidable (∀ e ∈ entries, e.2.mtime ≤ now))

instance (fs : Fs) : Decidable (ContentsDecode fs) :=
  inferInstanceAs
    (Decidable (∀ e ∈ fs, sessionNamed e.1 = true → (decodeContent e.2.content).isSome = true))

/-- Core sweep lemma: walking a well-formed directory listing (no duplicate
names, no future modification times, decodable session files), a session file
below the minimum age is left in place, and one at or above it is deleted
exactly when its embedded expiry timestamp is in the past. -/
theorem sweep_target_spec (store : FileSessionStorage) (now : Nat) (nowUtc : Int)
    (id : Int) (file : File) (rec : Record) :
    ∀ (entries : List (FileName × File)) (fs : Fs),
      MtimesOk entries now →
      ContentsDecode fs →
      List.Nodup (entries.map Prod.fst) →
      (FileName.session id, file) ∈ entries →
      fsLookup fs (FileName.session id) = some file →
      file.content = FileContent.encoded rec →
      (now - file.mtime < store.minimum_expiry_date →
        fsLookup (sweepEntries store entries fs now nowUtc).2 (FileName.session id)
          = some file) ∧
      (store.minimum_expiry_date ≤ now - file.mtime →
        (fsLookup (sweepEntries store entries fs now nowUtc).2 (FileName.session id) = none
          ↔ rec.expiry_date < nowUtc)) := by
  intro entries
  induction entries with
  | nil =>
    intro fs _ _ _ hmem _ _
    exact absurd hmem (List.not_mem_nil _)
  | cons e rest ih =>
    intro fs hmt hcd hnd hmem hlk hcontent
    obtain ⟨name, f⟩ := e
    have hmtf : f.mtime ≤ now := hmt (name, f) (List.mem_cons_self _ _)
    have hmtrest : MtimesOk rest now := fun e he => hmt e (List.mem_cons_of_mem _ he)
    have hnd' : List.Nodup (name :: rest.map Prod.fst) := by simpa using hnd
    have hnameNotRest : name ∉ rest.map Prod.fst := (List.nodup_cons.mp hnd').1
    have hndrest : List.Nodup (rest.map Prod.fst) := (List.nodup_cons.mp hnd').2
    by_cases hname : name = FileName.session id
    · subst hname
      have hfile : f = file := by
        rcases List.mem_cons.mp hmem with h | h
        · exact (congrArg Prod.snd h).symm
        · exact absurd (List.mem_map_of_mem Prod.fst h) hnameNotRest
      subst hfile
      have hcond : ∀ e ∈ rest, ∀ i : Int,
          parseName e.1 = some i → idToName i ≠ FileName.session id := by
        intro e he i hp heq
        have he1 : e.1 = FileName.session i := parseName_session e.1 i hp
        have he2 : e.1 = FileName.session id := by
          rw [he1]
          exact heq
        have hmm := List.mem_map_of_mem Prod.fst he
        rw [he2] at hmm
        exact hnameNotRest hmm
      simp only [sweepEntries, parseName]
      simp only [if_neg (not_lt.mpr hmtf)]
      refine ⟨fun hage => ?_, fun hage => ?_⟩
      · simp only [if_pos hage]
        rw [sweep_lookup_preserved store now nowUtc (FileName.session id) rest fs hcond]
        exact hlk
      · simp only [if_neg (not_lt.mpr hage)]
        have hload : load store fs id = Except.ok (some rec) := by
          simp [load, idToName, hlk, hcontent, decodeContent]
        simp only [hload]
        by_cases h3 : rec.expiry_date < nowUtc
        · simp only [if_pos h3, delete_noFault]
          rw [sweep_lookup_preserved store now nowUtc (FileName.session id) rest _ hcond]
          rw [fsLookup_erase]
          simp [h3, idToName]
        · simp only [if_neg h3]
          rw [sweep_lookup_preserved store now nowUtc (FileName.session id) rest fs hcond, hlk]
          simp [h3]
    · have hmemRest : (FileName.session id, file) ∈ rest := by
        rcases List.mem_cons.mp hmem with h | h
        · exact absurd (congrArg Prod.fst h).symm hname
        · exact h
      cases hp : parseName name with
      | none =>
        simp only [sweepEntries, hp]
        exact ih fs hmtrest hcd hndrest hmemRest hlk hcontent
      | some i =>
        have hni : name = FileName.session i := parseName_session name i hp
        have hii : FileName.session i ≠ FileName.session id := by
          rw [← hni]
          exact hname
        simp only [sweepEntries, hp]
        simp only [if_neg (not_lt.mpr hmtf)]
        by_cases h2 : now - f.mtime < store.minimum_expiry_date
        · simp only [if_pos h2]
          exact ih fs hmtrest hcd hndrest hmemRest hlk hcontent
        · simp only [if_neg h2]
          cases hlk2 : fsLookup fs (idToName i) with
          | none =>
            have hload : load store fs i = Except.ok none := by simp [load, hlk2]
            simp only [hload]
            exact ih fs hmtrest hcd hndrest hmemRest hlk hcontent
          | some g =>
            have hdec := hcd (idToName i, g) (mem_of_fsLookup_eq_some fs _ g hlk2)
              (by simp [idToName, sessionNamed])
            obtain ⟨r0, hr0⟩ := Option.isSome_iff_exists.mp hdec
            have hload : load store fs i = Except.ok (some r0) := by
              simp [load, hlk2, hr0]
            simp only [hload]
            by_cases h3 : r0.expiry_date < nowUtc
            · simp only [if_pos h3, delete_noFault]
              refine ih (fsErase fs (idToName i)) hmtrest
                (contentsDecode_fsErase fs _ hcd) hndrest hmemRest ?_ hcontent
              rw [fsLookup_erase, if_neg (fun hh => hii hh.symm)]
              exact hlk
            · simp only [if_neg h3]
              exact ih fs hmtrest hcd hndrest hmemRest hlk hcontent

/-- C2: for a session file in the storage directory of a well-formed store
(no duplicate names, no future modification times, decodable session files):
if its age `now - mtime` is below the configured minimum-expiry-check-age the
sweep leaves it in place even when its embedded expiry timestamp is already
past; once its age reaches or exceeds the threshold, the sweep deletes it if
and only if its embedded expiry timestamp is in the past. -/
theorem sweep_threshold_behavior (store : FileSessionStorage) (fs : Fs)
    (now : Nat) (nowUtc : Int) (id : Int) (file : File) (rec : Record)
    (hmt : MtimesOk fs now) (hcd : ContentsDecode fs)
    (hnd : List.Nodup (fs.map Prod.fst))
    (hlk : fsLookup fs (FileName.session id) = some file)
    (hcontent : file.content = FileContent.encoded rec) :
    (now - file.mtime < store.minimum_expiry_date →
      fsLookup (delete_expired store fs now nowUtc).2 (FileName.session id) = some file) ∧
    (store.minimum_expiry_date ≤ now - file.mtime →
      (fsLookup (delete_expired store fs now nowUtc).2 (FileName.session id) = none
        ↔ rec.expiry_date < nowUtc)) :=
  sweep_target_spec store now nowUtc id file rec fs fs hmt hcd hnd
    (mem_of_fsLookup_eq_some fs _ file hlk) hlk hcontent

/-- Witness for C2: a 90-second-old file whose expiry has passed is deleted
by a sweep with a 60-second threshold. -/
theorem sweep_threshold_behavior_witness :
    fsLookup (delete_expired ⟨60⟩
        [(FileName.session 1, ⟨FileContent.encoded ⟨1, "x", 5⟩, 10⟩)] 100 6).2
      (FileName.session 1) = none :=
  ((sweep_threshold_behavior ⟨60⟩
      [(FileName.session 1, ⟨FileContent.encoded ⟨1, "x", 5⟩, 10⟩)] 100 6 1
      ⟨FileContent.encoded ⟨1, "x", 5⟩, 10⟩ ⟨1, "x", 5⟩
      (by decide) (by decide) (by decide) (by decide) rfl).2
    (by decide)).mpr (by decide)

/-- C8: a directory entry whose name does not parse as a session identifier
is skipped by the sweep before any metadata read or load (processing it is
identical to not having it in the listing, so it can never make the sweep
fail), and no sweep pass ever deletes or modifies a foreign-named file. -/
theorem sweep_skips_foreign_files (store : FileSessionStorage) (s : String)
    (file : File) (rest entries : List (FileName × File)) (fs : Fs)
    (now : Nat) (nowUtc : Int) :
    sweepEntries store ((FileName.foreign s, file) :: rest) fs now nowUtc
      = sweepEntries store rest fs now nowUtc ∧
    fsLookup (sweepEntries store entries fs now nowUtc).2 (FileName.foreign s)
      = fsLookup fs (FileName.foreign s) ∧
    fsLookup (delete_expired store fs now nowUtc).2 (FileName.foreign s)
      = fsLookup fs (FileName.foreign s) := by
  refine ⟨?_, ?_, ?_⟩
  · simp only [sweepEntries, parseName]
  · exact sweep_lookup_preserved store now nowUtc _ entries fs
      (fun e he i hp => by simp [idToName])
  · exact sweep_lookup_preserved store now nowUtc _ fs fs
      (fun e he i hp => by simp [idToName])

/-- C9: when the clock arithmetic for a session-named entry fails (the file's
modification time is in the future of `SystemTime::now()`, the one fallible
step of the metadata/age phase in this embedding), the sweep aborts
immediately at that entry with a backend error, leaving the directory state
as it was and all remaining entries unprocessed. -/
theorem sweep_aborts_on_clock_failure (store : FileSessionStorage) (id : Int)
    (file : File) (rest : List (FileName × File)) (fs : Fs) (now : Nat) (nowUtc : Int)
    (h : now < file.mtime) :
    sweepEntries store ((FileName.session id, file) :: rest) fs now nowUtc
      = (Except.error (StoreError.backend "Failed to subtract dates"), fs) ∧
    delete_expired store ((FileName.session id, file) :: rest) now nowUtc
      = (Except.error (StoreError.backend "Failed to subtract dates"),
         (FileName.session id, file) :: rest) := by
  constructor
  · simp only [sweepEntries, parseName]
    rw [if_pos h]
  · simp only [delete_expired, sweepEntries, parseName]
    rw [if_pos h]

/-- Witness for C9: a first entry modified in the future of the sweep's clock
aborts the pass; a second, long-expired entry is left in place. -/
theorem sweep_aborts_on_clock_failure_witness :
    (10 : Nat) < (50 : Nat) ∧
    delete_expired ⟨60⟩
        [(FileName.session 1, ⟨FileContent.encoded ⟨1, "x", 0⟩, 50⟩),
         (FileName.session 2, ⟨FileContent.encoded ⟨2, "y", 0⟩, 0⟩)] 10 1000
      = (Except.error (StoreError.backend "Failed to subtract dates"),
         [(FileName.session 1, ⟨FileContent.encoded ⟨1, "x", 0⟩, 50⟩),
          (FileName.session 2, ⟨FileContent.encoded ⟨2, "y", 0⟩, 0⟩)]) :=
  ⟨by decide,
   (sweep_aborts_on_clock_failure ⟨60⟩ 1 ⟨FileContent.encoded ⟨1, "x", 0⟩, 50⟩
      [(FileName.session 2, ⟨FileContent.encoded ⟨2, "y", 0⟩, 0⟩)]
      [(FileName.session 1, ⟨FileContent.encoded ⟨1, "x", 0⟩, 50⟩),
       (FileName.session 2, ⟨FileContent.encoded ⟨2, "y", 0⟩, 0⟩)] 10 1000
      (by decide)).2⟩
